import Mathlib

/-!
Verification development for the Robothlon control-station core
(`robothlon.py`): the serial command transport, the device registry and
poller, and the combat-session controller.  The Python classes are
shallowly embedded as pure Lean functions; Qt event delivery becomes an
explicit event type, fallible operations (list indexing on an empty
deque, uncaught exceptions) return `Option` with `none` marking a crash.
-/

namespace Robothlon

/-! ### Enumerations (`DeviceState`, `DeviceType`, `DeviceMode`, `DeviceParam`) -/

inductive DeviceState where
  | unknown
  | previous
  | paused
  | operational
  | reload
  | damaged
  | destroyed
deriving DecidableEq

/-- `DeviceState(value)` in Python: the enum member for an integer, or a
`ValueError` (modelled as `none`).  Values are -1..5. -/
def DeviceState.ofInt (i : Int) : Option DeviceState :=
  if i = -1 then some .unknown
  else if i = 0 then some .previous
  else if i = 1 then some .paused
  else if i = 2 then some .operational
  else if i = 3 then some .reload
  else if i = 4 then some .damaged
  else if i = 5 then some .destroyed
  else none

/-- Integer value of a `DeviceState` member (used as `SetState4Combat` argument). -/
def DeviceState.toInt : DeviceState → Int
  | .unknown => -1
  | .previous => 0
  | .paused => 1
  | .operational => 2
  | .reload => 3
  | .damaged => 4
  | .destroyed => 5

inductive DeviceType where
  | tank
  | target
  | turret
deriving DecidableEq

/-- `DeviceType(value)` in Python: values 0..2, else `ValueError` (`none`). -/
def DeviceType.fromCode (n : Nat) : Option DeviceType :=
  if n = 0 then some .tank
  else if n = 1 then some .target
  else if n = 2 then some .turret
  else none

inductive DeviceMode where
  | training
  | combat
deriving DecidableEq

/-- `DeviceMode(value)` in Python: values 0..1, else `ValueError` (`none`). -/
def DeviceMode.fromCode (n : Nat) : Option DeviceMode :=
  if n = 0 then some .training
  else if n = 1 then some .combat
  else none

/-- `DeviceParam[name].value` in Python: the parameter identifier for a
configuration key name.  An unrecognized name raises `KeyError`
(modelled as `none`); note the source wraps this lookup in
`except ValueError`, which does not catch `KeyError`. -/
def deviceParamValue : String → Option Nat
  | "DefaultHitCnt" => some 1
  | "CurrentHitCnt" => some 2
  | "Group" => some 3
  | "IRPower" => some 4
  | "IRDamage" => some 5
  | "ReloadTime" => some 6
  | "RepairTime" => some 7
  | _ => none

/-! ### Device records -/

/-- A stored `Device` record.  The Python constructor initializes fields to
`None`, but a record is only ever stored in `DeviceManager._devices` after
all six fields validated, so stored records carry definite values. -/
structure Device where
  id : Nat
  type : DeviceType
  group : Nat
  mode : DeviceMode
  state : DeviceState
  health : Nat
  time : Nat
  missing_in_action : Bool
deriving DecidableEq

/-! ### Wire commands

Commands are kept structured; `renderCmd` is the exact line format the
Python code produces with `str.format`. -/

inductive Cmd where
  | ping
  | getInfo (addr : Nat)
  | setParameter (addr pid : Nat) (value : Int)
  | setMode (addr : Nat) (mode : Nat)
  | reset4Combat
  | setState4Combat (st : Int)
deriving DecidableEq

def renderCmd : Cmd → String
  | .ping => "Ping\r\n"
  | .getInfo a => "GetInfo " ++ toString a ++ "\r\n"
  | .setParameter a p v =>
      "SetParameter " ++ toString a ++ ", " ++ toString p ++ ", " ++ toString v ++ "\r\n"
  | .setMode a m => "SetMode " ++ toString a ++ ", " ++ toString m ++ "\r\n"
  | .reset4Combat => "Reset4Combat\r\n"
  | .setState4Combat v => "SetState4Combat " ++ toString v ++ "\r\n"

/-! ### The `GetInfo` response parser

`DeviceManager.__init__` builds the regular expression
`^(\d+)[\s,]+(\d+)[\s,]+(\d+)[\s,]+(\d+)[\s,]+(\d+)[\s,]+(\d+)` (ASCII)
and uses `re.match` (anchored at the start, trailing text permitted).
Because the digit class and the separator class are disjoint, the regex
is equivalent to sequential maximal-munch parsing, which is what we
implement over the character list. -/

/-- ASCII `\d` under `re.ASCII`: exactly the characters '0'..'9'. -/
def isDigitChar (c : Char) : Bool := 48 ≤ c.toNat && c.toNat ≤ 57

/-- ASCII `\s` under `re.ASCII`: space (32), tab (9), newline (10),
carriage return (13), vertical tab (11), form feed (12).  Also used by
Python's `str.strip()`. -/
def isPySpace (c : Char) : Bool :=
  c.toNat = 32 || c.toNat = 9 || c.toNat = 10 || c.toNat = 13 || c.toNat = 11 || c.toNat = 12

/-- The regex separator class `[\s,]` (comma is 44). -/
def isSepChar (c : Char) : Bool := isPySpace c || c.toNat = 44

/-- Python `str.strip()` on a character list. -/
def pyStripChars (l : List Char) : List Char :=
  ((l.dropWhile isPySpace).reverse.dropWhile isPySpace).reverse

/-- Python `str.strip()`. -/
def pyStrip (s : String) : String := ⟨pyStripChars s.data⟩

/-- Longest prefix of digit characters, and the remainder. -/
def spanDigits : List Char → List Char × List Char
  | [] => ([], [])
  | c :: rest =>
    if isDigitChar c then
      let p := spanDigits rest
      (c :: p.1, p.2)
    else ([], c :: rest)

/-- Longest prefix of separator characters, and the remainder. -/
def spanSeps : List Char → List Char × List Char
  | [] => ([], [])
  | c :: rest =>
    if isSepChar c then
      let p := spanSeps rest
      (c :: p.1, p.2)
    else ([], c :: rest)

/-- Python `int` applied to a matched digit group. -/
def digitsToNat (l : List Char) : Nat :=
  l.foldl (fun a c => a * 10 + (c.toNat - 48)) 0

/-- One `(\d+)` group: at least one digit, maximal munch. -/
def parseNatField (l : List Char) : Option (Nat × List Char) :=
  let p := spanDigits l
  if p.1 = [] then none else some (digitsToNat p.1, p.2)

/-- One `[\s,]+` separator run: at least one separator, maximal munch. -/
def skipSeps (l : List Char) : Option (List Char) :=
  let p := spanSeps l
  if p.1 = [] then none else some p.2

/-- The anchored match of `info_regexp`: six integer fields; any trailing
text is ignored (`re.match`, not `fullmatch`). -/
def parseInfoChars (l : List Char) : Option (Nat × Nat × Nat × Nat × Nat × Nat) := do
  let (v1, r1) ← parseNatField l
  let r1 ← skipSeps r1
  let (v2, r2) ← parseNatField r1
  let r2 ← skipSeps r2
  let (v3, r3) ← parseNatField r2
  let r3 ← skipSeps r3
  let (v4, r4) ← parseNatField r3
  let r4 ← skipSeps r4
  let (v5, r5) ← parseNatField r4
  let r5 ← skipSeps r5
  let (v6, _) ← parseNatField r5
  pure (v1, v2, v3, v4, v5, v6)

def parseInfo (s : String) : Option (Nat × Nat × Nat × Nat × Nat × Nat) :=
  parseInfoChars s.data

/-- The decimal digit characters, for formatting a field value back onto
the wire. -/
def digitChar : Nat → Char
  | 0 => '0'
  | 1 => '1'
  | 2 => '2'
  | 3 => '3'
  | 4 => '4'
  | 5 => '5'
  | 6 => '6'
  | 7 => '7'
  | 8 => '8'
  | 9 => '9'
  | _ => '*'

/-- Standard decimal rendering of a natural number (what Python's
`"{:d}".format` produces for a non-negative value). -/
def natDigits (n : Nat) : List Char :=
  if n < 10 then [digitChar n]
  else natDigits (n / 10) ++ [digitChar (n % 10)]
decreasing_by simp_wf; omega

/-- A `GetInfo` reply line formatted back from six field values:
`<type> <group> <mode> <state> <health> <time>`, space separated. -/
def formatInfoChars (ty gr mo st he ti : Nat) : List Char :=
  natDigits ty ++ ' ' ::
    (natDigits gr ++ ' ' ::
      (natDigits mo ++ ' ' ::
        (natDigits st ++ ' ' ::
          (natDigits he ++ ' ' :: natDigits ti))))

def formatInfoLine (ty gr mo st he ti : Nat) : String :=
  ⟨formatInfoChars ty gr mo st he ti⟩

/-- The validation block of `DeviceManager._process_query_response`: each
field is checked (`DeviceType(..)`, group range, `DeviceMode(..)`,
`DeviceState(..)`, health range, time sign); a record is built only if all
checks pass, with `missing_in_action` cleared.  The regex groups are
non-negative, so the `< 0` checks on group and time never fire. -/
def buildDevice (addr t g mo st h ti : Nat) : Option Device :=
  match DeviceType.fromCode t with
  | none => none
  | some ty =>
    match DeviceMode.fromCode mo with
    | none => none
    | some md =>
      match DeviceState.ofInt (st : Int) with
      | none => none
      | some ds =>
        if 7 < g then none
        else if 255 < h then none
        else some { id := addr, type := ty, group := g, mode := md, state := ds,
                    health := h, time := ti, missing_in_action := false }

/-- The field-validity condition as stated by the specification, restricted
to the non-negative integers the regex can produce. -/
def infoFieldsValid (t g mo st h : Nat) : Prop :=
  t ≤ 2 ∧ g ≤ 7 ∧ mo ≤ 1 ∧ st ≤ 5 ∧ h ≤ 255

instance (t g mo st h : Nat) : Decidable (infoFieldsValid t g mo st h) := by
  unfold infoFieldsValid; infer_instance

/-! ### Device Manager state and operations -/

/-- `DeviceManager` mutable state: the registry, the polling cursor, the
upload pass flags and the enabled flag.  `FIRST_DEVICE = 1`,
`LAST_DEVICE = 31`. -/
structure DMState where
  devs : Nat → Option Device
  current : Nat
  upload : Bool
  firstUploaded : Option Nat
  enabled : Bool

/-- Cursor advance at the end of `_process_query_response`:
`current += 1; if current > LAST_DEVICE: current = FIRST_DEVICE`. -/
def advanceCursor (c : Nat) : Nat := if c + 1 > 31 then 1 else c + 1

/-- The `SetParameter` emission loop of `_query_next_device`.  For each
configured `(name, value)` pair the source evaluates
`DeviceParam[param_name].value` inside `try ... except ValueError`; an
unrecognized name raises `KeyError`, which that handler does not catch,
so the whole poll step aborts (`none`). -/
def emitParams (addr : Nat) : List (String × Int) → Option (List Cmd)
  | [] => some []
  | (k, v) :: rest =>
    match deviceParamValue k with
    | none => none
    | some pid => (emitParams addr rest).map (fun cs => Cmd.setParameter addr pid v :: cs)

/-- Output of one `_query_next_device` call: the new manager state, the
commands handed to the transport (in order), whether the `SetParameter`
push branch ran (and for which address), and whether `upload_finished`
was emitted. -/
structure QueryOut where
  state : DMState
  cmds : List Cmd
  pushedTo : Option Nat
  finished : Bool

/-- The disarm check at the top of the upload branch of
`_query_next_device`: when the pass has wrapped back to the address where
it began, clear the anchor, drop the upload flag and emit
`upload_finished` (the `Bool`). -/
def disarmCheck (s : DMState) : DMState × Bool :=
  if s.upload then
    match s.firstUploaded with
    | some f =>
      if f = s.current then ({ s with firstUploaded := none, upload := false }, true)
      else (s, false)
    | none => (s, false)
  else (s, false)

/-- Anchor the upload pass at the current address when none is set yet. -/
def armAnchor (s : DMState) : DMState :=
  if s.firstUploaded = none then { s with firstUploaded := some s.current } else s

/-- The parameter-push block of `_query_next_device`: for a known,
present device, emit its configured parameters (`none` when the lookup
of an unrecognized key raises the uncaught `KeyError`); otherwise push
nothing.  The second component records the pushed-to address. -/
def pushParams (settings : DeviceType → Nat → List (String × Int)) (s : DMState) :
    Option (List Cmd × Option Nat) :=
  match s.devs s.current with
  | some d =>
    if d.missing_in_action = false then
      match emitParams s.current (settings d.type d.id) with
      | none => none
      | some ps => some (ps, some s.current)
    else some ([], none)
  | none => some ([], none)

/-- `DeviceManager._query_next_device`, parameterized by the settings
source (`SettingsManager.get_device_params`).  Sends `GetInfo` for the
current address, runs the disarm check, and during an active pass anchors
it and pushes the current device's parameters.  Returns `none` when the
parameter push raises the uncaught `KeyError`. -/
def queryStep (settings : DeviceType → Nat → List (String × Int)) (s : DMState) :
    Option QueryOut :=
  if s.enabled = false then some ⟨s, [], none, false⟩
  else
    if (disarmCheck s).1.upload then
      match pushParams settings (armAnchor (disarmCheck s).1) with
      | none => none
      | some (ps, pushed) =>
        some ⟨armAnchor (disarmCheck s).1, Cmd.getInfo s.current :: ps, pushed,
              (disarmCheck s).2⟩
    else some ⟨(disarmCheck s).1, [Cmd.getInfo s.current], none, (disarmCheck s).2⟩

/-- The response-interpretation part of
`DeviceManager._process_query_response` (everything up to and including
the cursor advance; the trailing re-query is modelled separately as the
next poll step). -/
def processResponseCore (resp : String) (s : DMState) : DMState :=
  let s1 :=
    if resp = "Ack 2" then
      match s.devs s.current with
      | some d =>
        { s with devs := fun a =>
            if a = s.current then some { d with missing_in_action := true } else s.devs a }
      | none => s
    else
      match parseInfo resp with
      | some (t, g, mo, st, h, ti) =>
        match buildDevice s.current t g mo st h ti with
        | some d =>
          { s with devs := fun a => if a = s.current then some d else s.devs a }
        | none => s
      | none => s
  { s1 with current := advanceCursor s1.current }

/-- One full poll iteration during an upload pass: issue the query (and
parameter pushes), then handle a response.  `resp` is the line the device
answered with. -/
def pollStep (settings : DeviceType → Nat → List (String × Int)) (resp : String)
    (s : DMState) : Option (DMState × List Cmd × Option Nat × Bool) :=
  match queryStep settings s with
  | none => none
  | some o => some (processResponseCore resp o.state, o.cmds, o.pushedTo, o.finished)

/-- `n` poll iterations with responses that fail to parse (registry held
fixed), accumulating emitted commands, the addresses whose parameters
were pushed, and whether `upload_finished` fired. -/
def passRun (settings : DeviceType → Nat → List (String × Int)) :
    Nat → DMState → Option (DMState × List Cmd × List Nat × Bool)
  | 0, s => some (s, [], [], false)
  | n + 1, s =>
    match pollStep settings "" s with
    | none => none
    | some (s', cmds, pushed, fin) =>
      match passRun settings n s' with
      | none => none
      | some (sf, cs, ps, fin') =>
        some (sf, cmds ++ cs, (pushed.toList ++ ps), fin || fin')

/-- A registry entry is "present" when a record exists and is not
missing-in-action — the condition guarding the parameter push. -/
def presentDev (o : Option Device) : Bool :=
  match o with
  | some d => !d.missing_in_action
  | none => false

/-- All configured keys for a (possible) device are recognized parameter
names — the condition under which the parameter push does not raise. -/
def paramsOk (settings : DeviceType → Nat → List (String × Int)) (o : Option Device) : Bool :=
  match o with
  | none => true
  | some d => (settings d.type d.id).all (fun kv => (deviceParamValue kv.1).isSome)

/-- The `n` successive cursor addresses starting at `d`. -/
def seqAddrs (d : Nat) : Nat → List Nat
  | 0 => []
  | n + 1 => d :: seqAddrs (advanceCursor d) n

/-! ### Game Manager (session controller) -/

inductive GState where
  | disabled
  | idle
  | ready
  | running
  | paused
deriving DecidableEq

/-- `GameManager` timing state.  `QElapsedTimer` is modelled by a validity
flag and the absolute start instant (milliseconds); every operation takes
the current instant `now` explicitly. -/
structure GMState where
  gstate : GState
  prevElapsed : Nat
  timerValid : Bool
  timerStart : Nat
  tickActive : Bool
deriving DecidableEq

/-- `refresh_time`'s millisecond count:
`prev_elapsed_time + (elapsed_timer.elapsed() if valid else 0)`. -/
def elapsedMs (s : GMState) (now : Nat) : Nat :=
  s.prevElapsed + (if s.timerValid then now - s.timerStart else 0)

/-- `GameManager._start_timer`. -/
def startTimer (reset : Bool) (now : Nat) (s : GMState) : GMState :=
  let p := if reset then 0 else s.prevElapsed
  { s with prevElapsed := p, timerValid := true, timerStart := now, tickActive := true }

/-- `GameManager._stop_timer`. -/
def stopTimer (reset : Bool) (now : Nat) (s : GMState) : GMState :=
  let p :=
    if reset then 0
    else if s.timerValid then s.prevElapsed + (now - s.timerStart)
    else s.prevElapsed
  { s with prevElapsed := p, timerValid := false, tickActive := false }

/-- `GameManager.enable`. -/
def gmEnable (now : Nat) (s : GMState) : GMState :=
  if s.gstate ≠ GState.disabled then s
  else { stopTimer true now s with gstate := GState.idle }

/-- `GameManager.disable`. -/
def gmDisable (now : Nat) (s : GMState) : GMState :=
  { stopTimer true now s with gstate := GState.disabled }

/-- `GameManager.reset_game`: the guard and the command it enqueues. -/
def resetGame (s : GMState) : GMState × List Cmd :=
  if s.gstate = GState.disabled then (s, []) else (s, [Cmd.reset4Combat])

/-- `GameManager._process_reset_response`. -/
def processResetResponse (resp : String) (now : Nat) (s : GMState) : GMState :=
  if resp = "Ack 0" then { stopTimer true now s with gstate := GState.ready } else s

/-- `GameManager.start_game`. -/
def startGame (s : GMState) : GMState × List Cmd :=
  if s.gstate ≠ GState.ready then (s, [])
  else (s, [Cmd.setState4Combat DeviceState.operational.toInt])

/-- `GameManager._process_start_response`. -/
def processStartResponse (resp : String) (now : Nat) (s : GMState) : GMState :=
  if resp = "Ack 0" then { startTimer true now s with gstate := GState.running } else s

/-- `GameManager.stop_game`. -/
def stopGame (s : GMState) : GMState × List Cmd :=
  if s.gstate ≠ GState.running ∧ s.gstate ≠ GState.paused then (s, [])
  else (s, [Cmd.setState4Combat DeviceState.destroyed.toInt])

/-- `GameManager._process_stop_response`. -/
def processStopResponse (resp : String) (now : Nat) (s : GMState) : GMState :=
  if resp = "Ack 0" then { stopTimer false now s with gstate := GState.idle } else s

/-- `GameManager.pause_game`: pause when running, unpause when paused. -/
def pauseGame (s : GMState) : GMState × List Cmd :=
  if s.gstate ≠ GState.running ∧ s.gstate ≠ GState.paused then (s, [])
  else if s.gstate = GState.running then
    (s, [Cmd.setState4Combat DeviceState.paused.toInt])
  else (s, [Cmd.setState4Combat DeviceState.previous.toInt])

/-- `GameManager._process_pause_response`. -/
def processPauseResponse (resp : String) (now : Nat) (s : GMState) : GMState :=
  if resp = "Ack 0" then { stopTimer false now s with gstate := GState.paused } else s

/-- `GameManager._process_unpause_response`. -/
def processUnpauseResponse (resp : String) (now : Nat) (s : GMState) : GMState :=
  if resp = "Ack 0" then { startTimer false now s with gstate := GState.running } else s

/-! ### Command Transport

`CommandTransport` is an event-driven state machine: a FIFO deque of
queued commands, a single-shot pacing timer, an unsent-byte counter and
the `disabled`/`idle`/`work` state.  Qt signal deliveries (timer
timeout, `bytesWritten`, `readyRead`), the public methods and the port
open/close status become the event type `TEvent`.  A step returns
`none` when the Python code would raise (indexing `_command_queue[0]`
or `popleft()` on an empty deque). -/

inductive CTState where
  | disabled
  | idle
  | work
deriving DecidableEq

/-- One entry of `_command_queue`: the request line and an opaque
identifier for the registered callback (`none` = fire-and-forget). -/
structure QueuedCommand where
  request : String
  callback : Option Nat
deriving DecidableEq

structure TransportState where
  queue : List QueuedCommand
  unsentBytes : Int
  ctState : CTState
  readComplete : Bool
  writeComplete : Bool
  timerActive : Bool
  portOpen : Bool
deriving DecidableEq

inductive TEvent where
  | timerFire
  | bytesWritten (sent : Int)
  | readyRead (line : Option String)
  | sendCommand (request : String) (callback : Option Nat)
  | enable
  | disable
  | clear
  | portOpened
  | portClosed
deriving DecidableEq

/-- `CommandTransport.send_command`: append to the deque; if idle, start
the pacing timer. -/
def sendCommandFn (req : String) (cb : Option Nat) (s : TransportState) : TransportState :=
  if s.ctState = CTState.idle then
    { s with queue := s.queue ++ [⟨req, cb⟩], timerActive := true }
  else
    { s with queue := s.queue ++ [⟨req, cb⟩] }

/-- `CommandTransport._process_request`: abort unless idle; detect a
closed port; otherwise take the head of the queue, record its byte
length as unsent, reset both completion flags and enter `work` (the
write itself is issued to the port here). -/
def processRequest (s : TransportState) : Option TransportState :=
  if s.ctState ≠ CTState.idle then some s
  else if s.portOpen = false then some { s with ctState := CTState.disabled }
  else
    match s.queue with
    | [] => none
    | c :: _ =>
      some { s with unsentBytes := Int.ofNat c.request.length,
                    ctState := CTState.work,
                    readComplete := false, writeComplete := false }

/-- `CommandTransport._finalize_request`: pop the head, return to idle,
restart the pacing timer if commands remain. -/
def finalizeRequest (s : TransportState) : Option TransportState :=
  if s.ctState ≠ CTState.work then some s
  else
    match s.queue with
    | [] => none
    | _ :: rest =>
      some { s with queue := rest, ctState := CTState.idle,
                    timerActive := if rest = [] then s.timerActive else true }

/-- `CommandTransport._handle_write`: subtract the written byte count;
at zero record write-completion and finalize if the read has also
completed. -/
def handleWrite (sent : Int) (s : TransportState) : Option TransportState :=
  if s.ctState ≠ CTState.work then some s
  else
    if s.unsentBytes - sent = 0 then
      if s.readComplete = true then
        finalizeRequest { s with unsentBytes := s.unsentBytes - sent, writeComplete := true }
      else
        some { s with unsentBytes := s.unsentBytes - sent, writeComplete := true }
    else
      some { s with unsentBytes := s.unsentBytes - sent }

/-- `CommandTransport._handle_read`: outside `work` the bytes are
ignored; a complete line is stripped; a non-empty result invokes the
head command's callback (indexing the deque — a crash when it is
empty), records read-completion and finalizes if the write has also
completed. -/
def handleReadLine : Option String → TransportState → Option TransportState
  | none, s => some s
  | some raw, s =>
    if (pyStrip raw).length ≠ 0 then
      match s.queue with
      | [] => none
      | _ :: _ =>
        if s.writeComplete = true then
          finalizeRequest { s with readComplete := true }
        else
          some { s with readComplete := true }
    else some s

def handleRead (line : Option String) (s : TransportState) : Option TransportState :=
  if s.ctState ≠ CTState.work then some s
  else handleReadLine line s

/-- `CommandTransport.clear`: stop the timer, empty the deque, zero the
unsent-byte counter.  The `disabled`/`idle`/`work` state is untouched. -/
def clearedState (s : TransportState) : TransportState :=
  { s with timerActive := false, queue := [], unsentBytes := 0 }

/-- `CommandTransport.enable`: from `disabled` move to `idle`, enqueue
the `Ping` liveness probe and immediately process the queue. -/
def enableFn (s : TransportState) : Option TransportState :=
  if s.ctState ≠ CTState.disabled then some s
  else
    if (sendCommandFn "Ping\r\n" none { s with ctState := CTState.idle }).queue ≠ [] then
      processRequest (sendCommandFn "Ping\r\n" none { s with ctState := CTState.idle })
    else
      some (sendCommandFn "Ping\r\n" none { s with ctState := CTState.idle })

/-- One delivered event.  The single-shot timer fires only while armed
(`timer.stop()` cancels a pending shot). -/
def step (s : TransportState) : TEvent → Option TransportState
  | .timerFire =>
    if s.timerActive then processRequest { s with timerActive := false } else some s
  | .bytesWritten n => handleWrite n s
  | .readyRead l => handleRead l s
  | .sendCommand r c => some (sendCommandFn r c s)
  | .enable => enableFn s
  | .disable => some { s with timerActive := false, ctState := CTState.disabled }
  | .clear => some (clearedState s)
  | .portOpened => some { s with portOpen := true }
  | .portClosed => some { s with portOpen := false }

/-- Run a list of events from a state; `none` as soon as any step crashes. -/
def runEvents (s : TransportState) : List TEvent → Option TransportState
  | [] => some s
  | e :: es =>
    match step s e with
    | none => none
    | some s' => runEvents s' es

/-- The transport before `enable`: empty queue, disabled, port closed. -/
def initTransport : TransportState :=
  ⟨[], 0, CTState.disabled, false, false, false, false⟩

/-- Number of commands being written / awaiting a reply: the design has a
single flight slot, occupied exactly when the state is `work`. -/
def inFlightCount (s : TransportState) : Nat :=
  if s.ctState = CTState.work then 1 else 0

/-- The per-step transport invariant behind the single-in-flight / FIFO /
dequeue-after-both-completions claim, phrased over the pre-step queue `q`
and state `cst` and the post-step state `s'`:

1. at most one command is in flight;
2. a transition *into* `work` (a write being issued) targets the head of
   the queue — its byte length is recorded as unsent and both completion
   flags are reset — and the queue is the pre-step queue possibly extended
   at the back (never reordered);
3. a `work → idle` transition (the only way a command is retired with the
   transport returning to idle) pops exactly the head and happens only
   with both the write-completion and the read-completion flags recorded;
4. every step either leaves the queue unchanged, appends one command at
   the back, pops the head as in (3), or empties it wholesale (`clear`). -/
def C1Prop (q : List QueuedCommand) (cst : CTState) (s' : TransportState) : Prop :=
  inFlightCount s' ≤ 1 ∧
  (s'.ctState = CTState.work → cst ≠ CTState.work →
    (∃ c rest, s'.queue = c :: rest ∧ s'.unsentBytes = Int.ofNat c.request.length) ∧
    s'.writeComplete = false ∧ s'.readComplete = false ∧
    (s'.queue = q ∨ ∃ qc, s'.queue = q ++ [qc])) ∧
  (cst = CTState.work → s'.ctState = CTState.idle →
    s'.queue = q.tail ∧ s'.writeComplete = true ∧ s'.readComplete = true) ∧
  (s'.queue = q ∨ (∃ qc, s'.queue = q ++ [qc]) ∨
    (s'.queue = q.tail ∧ cst = CTState.work ∧ s'.ctState = CTState.idle ∧
      s'.writeComplete = true ∧ s'.readComplete = true) ∨
    s'.queue = [])

/-! ## Theorems -/

/-- C6: a negative-acknowledgment `GetInfo` response (`"Ack 2"`) only sets
`missing_in_action` on the existing record for the polled address, leaving
every other field and every other address unchanged; when no record exists
for that address the registry is unchanged (no record is created). -/
theorem C6_ack2_marks_mia_only (s : DMState) :
    (processResponseCore "Ack 2" s).devs = fun a =>
      if a = s.current then
        (s.devs s.current).map (fun d => { d with missing_in_action := true })
      else s.devs a := by
  funext a
  unfold processResponseCore
  simp only [if_pos rfl]
  cases h : s.devs s.current with
  | none =>
    simp only [h, Option.map_none']
    by_cases ha : a = s.current
    · subst ha; simp [h]
    · simp [ha]
  | some d =>
    simp only [h, Option.map_some']
    by_cases ha : a = s.current
    · subst ha; simp
    · simp [ha]

/-- C10: the session controller's acknowledgment callbacks set the new
state unconditionally, with no re-check of the current state; in
particular after `disable()` a late affirmative acknowledgment for
reset/start/pause/unpause still moves the session to
ready/running/paused/running, out of the disabled state. -/
theorem C10_late_ack_overrides_disable (s : GMState) (t0 t : Nat) :
    (processResetResponse "Ack 0" t s).gstate = GState.ready ∧
    (processStartResponse "Ack 0" t s).gstate = GState.running ∧
    (processPauseResponse "Ack 0" t s).gstate = GState.paused ∧
    (processUnpauseResponse "Ack 0" t s).gstate = GState.running ∧
    (processResetResponse "Ack 0" t (gmDisable t0 s)).gstate = GState.ready ∧
    (processStartResponse "Ack 0" t (gmDisable t0 s)).gstate = GState.running ∧
    (processPauseResponse "Ack 0" t (gmDisable t0 s)).gstate = GState.paused ∧
    (gmDisable t0 s).gstate = GState.disabled := by
  refine ⟨?_, ?_, ?_, ?_, ?_, ?_, ?_, ?_⟩ <;>
    simp [processResetResponse, processStartResponse, processPauseResponse,
          processUnpauseResponse, gmDisable, startTimer, stopTimer]

/-- C7: elapsed time is advanced only while running: an affirmative pause
acknowledgment folds the stopwatch into the base and freezes elapsed time
at its value at the pause instant; an affirmative unpause resumes from
that frozen value, so the paused interval `[t, t']` is excluded; stop
freezes without resetting; reset/enable/disable zero the elapsed time. -/
theorem C7_elapsed_pause_resume_invariant (s : GMState) (t t' u x : Nat) :
    elapsedMs (processPauseResponse "Ack 0" t s) x = elapsedMs s t ∧
    (processPauseResponse "Ack 0" t s).gstate = GState.paused ∧
    (processPauseResponse "Ack 0" t s).timerValid = false ∧
    elapsedMs (processUnpauseResponse "Ack 0" t' (processPauseResponse "Ack 0" t s)) u
      = elapsedMs s t + (u - t') ∧
    (processUnpauseResponse "Ack 0" t' (processPauseResponse "Ack 0" t s)).gstate
      = GState.running ∧
    elapsedMs (processStopResponse "Ack 0" t s) x = elapsedMs s t ∧
    elapsedMs (processResetResponse "Ack 0" t s) x = 0 ∧
    elapsedMs (gmDisable t s) x = 0 ∧
    elapsedMs (gmEnable t s) x = (if s.gstate = GState.disabled then 0 else elapsedMs s x) := by
  refine ⟨?_, ?_, ?_, ?_, ?_, ?_, ?_, ?_, ?_⟩ <;>
    by_cases hv : s.timerValid <;>
    by_cases hd : s.gstate = GState.disabled <;>
    simp [elapsedMs, processPauseResponse, processUnpauseResponse, processStopResponse,
          processResetResponse, gmDisable, gmEnable, startTimer, stopTimer, hv, hd]

/-- C4 counterexample: in the `ready` state (which per the claim should
reject the request with no command sent), `reset_game` does send the
`Reset4Combat` command — the source only rejects in `disabled`. -/
theorem C4_reset_sent_in_ready :
    (resetGame ⟨GState.ready, 0, false, 0, false⟩).2 = [Cmd.reset4Combat] := by
  decide

/-- C4 (amended): `reset_game` sends `Reset4Combat` in every state except
`disabled` (idle, ready, running and paused all send); only in `disabled`
is the request rejected locally with no command sent; an affirmative
acknowledgment moves the session to `ready` with elapsed time zeroed, and
a non-affirmative acknowledgment leaves the state unchanged. -/
theorem C4_reset_guard_amended (s : GMState) (now x : Nat) (resp : String) :
    ((resetGame s).2 = if s.gstate = GState.disabled then [] else [Cmd.reset4Combat]) ∧
    (resetGame s).1 = s ∧
    (processResetResponse "Ack 0" now s).gstate = GState.ready ∧
    elapsedMs (processResetResponse "Ack 0" now s) x = 0 ∧
    (resp ≠ "Ack 0" → processResetResponse resp now s = s) := by
  refine ⟨?_, ?_, ?_, ?_, fun hr => ?_⟩
  · unfold resetGame; split <;> simp_all
  · unfold resetGame; split <;> rfl
  · simp [processResetResponse]
  · simp [elapsedMs, processResetResponse, stopTimer]
  · simp [processResetResponse, hr]

theorem C4_reset_guard_amended_witness :
    (resetGame ⟨GState.idle, 0, false, 0, false⟩).2 = [Cmd.reset4Combat] ∧
    processResetResponse "Ack 1" 0 ⟨GState.idle, 0, false, 0, false⟩
      = ⟨GState.idle, 0, false, 0, false⟩ := by
  have h := C4_reset_guard_amended ⟨GState.idle, 0, false, 0, false⟩ 0 0 "Ack 1"
  exact ⟨by simpa using h.1, h.2.2.2.2 (by decide)⟩

/-- C3: the claim (unrecognized configured keys are skipped without
raising and the poll step completes normally) matches the evident intent
of the `try ... except` in the source, but the code is wrong: an
unrecognized key makes `DeviceParam[param_name]` raise `KeyError`, which
the `except ValueError` handler does not catch, so the poll step aborts
(`none`).  A recognized key does emit its `SetParameter` command. -/
theorem C3_unrecognized_key_raises :
    queryStep (fun _ _ => [("Bogus", 5)])
      ⟨fun a => if a = 3 then
          some ⟨3, DeviceType.tank, 0, DeviceMode.training, DeviceState.operational, 100, 0, false⟩
        else none, 3, true, none, true⟩ = none ∧
    emitParams 3 [("Bogus", 5)] = none ∧
    emitParams 3 [("IRPower", 10)] = some [Cmd.setParameter 3 4 10] := by
  exact ⟨rfl, rfl, rfl⟩

/-- C2 counterexample: `clear()` invoked while a command is in flight
(`work` state) is not safe — the very next read-completion event with a
non-empty line indexes the head of the now-empty deque and crashes.  The
trace: open port, enable (queues `Ping` and starts writing it), clear,
then a complete non-empty reply line arrives. -/
theorem C2_clear_during_work_crashes :
    runEvents initTransport
      [TEvent.portOpened, TEvent.enable, TEvent.clear,
       TEvent.readyRead (some "Ack 0\r\n")] = none := by
  rfl

/-- C2 (amended): `clear()` cancels the pending timer, empties the queue
and resets the unsent-byte counter in every transport state, leaving the
state field itself unchanged; when the transport is not in the `work`
state no subsequently delivered event can crash, but (per the
counterexample) clearing while in `work` leaves a read-completion able to
index the emptied queue. -/
theorem C2_clear_amended (s : TransportState) (e : TEvent)
    (h : s.ctState ≠ CTState.work) :
    step s TEvent.clear = some (clearedState s) ∧
    (clearedState s).queue = [] ∧
    (clearedState s).unsentBytes = 0 ∧
    (clearedState s).timerActive = false ∧
    (clearedState s).ctState = s.ctState ∧
    step (clearedState s) e ≠ none := by
  refine ⟨rfl, rfl, rfl, rfl, rfl, ?_⟩
  cases e with
  | timerFire => simp [step, clearedState]
  | bytesWritten n => simp [step, handleWrite, clearedState, h]
  | readyRead l => simp [step, handleRead, clearedState, h]
  | sendCommand r c => simp [step]
  | enable =>
    simp only [step, enableFn, clearedState]
    by_cases hd : s.ctState = CTState.disabled <;>
      simp [hd, sendCommandFn, processRequest] <;> split <;> simp
  | disable => simp [step]
  | clear => simp [step]
  | portOpened => simp [step]
  | portClosed => simp [step]

theorem C2_clear_amended_witness :
    step (clearedState initTransport) TEvent.timerFire ≠ none :=
  (C2_clear_amended initTransport TEvent.timerFire (by decide)).2.2.2.2.2

/-! ### Parser lemmas: maximal-munch spans, decimal round-trip -/

theorem isSepChar_eq_false_of_digit {c : Char} (h : isDigitChar c = true) :
    isSepChar c = false := by
  simp only [isDigitChar, Bool.and_eq_true, decide_eq_true_eq] at h
  simp only [isSepChar, isPySpace, Bool.or_eq_false_iff, decide_eq_false_iff_not]
  omega

theorem spanDigits_eq (ds rest : List Char)
    (hds : ∀ c ∈ ds, isDigitChar c = true)
    (hrest : ∀ c ∈ rest.head?, isDigitChar c = false) :
    spanDigits (ds ++ rest) = (ds, rest) := by
  induction ds with
  | nil =>
    simp only [List.nil_append]
    cases rest with
    | nil => rfl
    | cons c r =>
      have hc : isDigitChar c = false := hrest c (by simp)
      simp [spanDigits, hc]
  | cons d ds ih =>
    have hd : isDigitChar d = true := hds d (by simp)
    have ih' := ih (fun c hc => hds c (by simp [hc]))
    simp [spanDigits, hd, ih']

theorem spanSeps_eq (ss rest : List Char)
    (hss : ∀ c ∈ ss, isSepChar c = true)
    (hrest : ∀ c ∈ rest.head?, isSepChar c = false) :
    spanSeps (ss ++ rest) = (ss, rest) := by
  induction ss with
  | nil =>
    simp only [List.nil_append]
    cases rest with
    | nil => rfl
    | cons c r =>
      have hc : isSepChar c = false := hrest c (by simp)
      simp [spanSeps, hc]
  | cons d ss ih =>
    have hd : isSepChar d = true := hss d (by simp)
    have ih' := ih (fun c hc => hss c (by simp [hc]))
    simp [spanSeps, hd, ih']

theorem digitChar_toNat {d : Nat} (h : d < 10) : (digitChar d).toNat = 48 + d := by
  interval_cases d <;> rfl

theorem isDigitChar_digitChar {d : Nat} (h : d < 10) :
    isDigitChar (digitChar d) = true := by
  interval_cases d <;> rfl

theorem natDigits_all_digit (n : Nat) : ∀ c ∈ natDigits n, isDigitChar c = true := by
  induction n using Nat.strong_induction_on with
  | _ n ih =>
    rw [natDigits]
    split
    · intro c hc
      simp only [List.mem_singleton] at hc
      subst hc
      exact isDigitChar_digitChar (by omega)
    · intro c hc
      rw [List.mem_append] at hc
      rcases hc with hc | hc
      · exact ih (n / 10) (by omega) c hc
      · simp only [List.mem_singleton] at hc
        subst hc
        exact isDigitChar_digitChar (by omega)

theorem natDigits_ne_nil (n : Nat) : natDigits n ≠ [] := by
  rw [natDigits]
  split <;> simp

theorem digitsToNat_append_one (l : List Char) (c : Char) :
    digitsToNat (l ++ [c]) = digitsToNat l * 10 + (c.toNat - 48) := by
  simp [digitsToNat, List.foldl_append]

theorem digitsToNat_natDigits (n : Nat) : digitsToNat (natDigits n) = n := by
  induction n using Nat.strong_induction_on with
  | _ n ih =>
    rw [natDigits]
    split
    · rename_i h
      simp only [digitsToNat, List.foldl_cons, List.foldl_nil]
      rw [digitChar_toNat h]
      omega
    · rename_i h
      rw [digitsToNat_append_one, ih (n / 10) (by omega),
          digitChar_toNat (show n % 10 < 10 by omega)]
      omega

theorem parseNatField_natDigits (n : Nat) (rest : List Char)
    (hrest : ∀ c ∈ rest.head?, isDigitChar c = false) :
    parseNatField (natDigits n ++ rest) = some (n, rest) := by
  have hspan := spanDigits_eq (natDigits n) rest (natDigits_all_digit n) hrest
  unfold parseNatField
  rw [hspan]
  simp [natDigits_ne_nil n, digitsToNat_natDigits n]

theorem skipSeps_space (rest : List Char)
    (hrest : ∀ c ∈ rest.head?, isSepChar c = false) :
    skipSeps (' ' :: rest) = some rest := by
  have hspan := spanSeps_eq [' '] rest (by intro c hc; simp at hc; subst hc; rfl) hrest
  unfold skipSeps
  rw [show (' ' :: rest) = [' '] ++ rest from rfl, hspan]
  simp

theorem head_space_not_digit (rest : List Char) :
    ∀ c ∈ ((' ' :: rest).head?), isDigitChar c = false := by
  intro c hc
  simp only [List.head?_cons, Option.mem_some_iff] at hc
  subst hc
  rfl

theorem head_natDigits_not_sep (n : Nat) (rest : List Char) :
    ∀ c ∈ ((natDigits n ++ rest).head?), isSepChar c = false := by
  obtain ⟨c, l, hcl⟩ := List.exists_cons_of_ne_nil (natDigits_ne_nil n)
  rw [hcl]
  intro x hx
  simp only [List.cons_append, List.head?_cons, Option.mem_some_iff] at hx
  subst hx
  exact isSepChar_eq_false_of_digit (natDigits_all_digit n c (by rw [hcl]; simp))

theorem head_nil_not_digit :
    ∀ c ∈ (([] : List Char).head?), isDigitChar c = false := by
  intro c hc
  simp at hc

theorem parseInfoChars_format (ty gr mo st he ti : Nat) :
    parseInfoChars (formatInfoChars ty gr mo st he ti) = some (ty, gr, mo, st, he, ti) := by
  unfold formatInfoChars parseInfoChars
  rw [parseNatField_natDigits ty _ (head_space_not_digit _)]
  simp only [Option.bind_eq_bind, Option.some_bind]
  rw [skipSeps_space _ (head_natDigits_not_sep gr _)]
  simp only [Option.some_bind]
  rw [parseNatField_natDigits gr _ (head_space_not_digit _)]
  simp only [Option.some_bind]
  rw [skipSeps_space _ (head_natDigits_not_sep mo _)]
  simp only [Option.some_bind]
  rw [parseNatField_natDigits mo _ (head_space_not_digit _)]
  simp only [Option.some_bind]
  rw [skipSeps_space _ (head_natDigits_not_sep st _)]
  simp only [Option.some_bind]
  rw [parseNatField_natDigits st _ (head_space_not_digit _)]
  simp only [Option.some_bind]
  rw [skipSeps_space _ (head_natDigits_not_sep he _)]
  simp only [Option.some_bind]
  rw [parseNatField_natDigits he _ (head_space_not_digit _)]
  simp only [Option.some_bind]
  rw [show natDigits ti = natDigits ti ++ [] by simp]
  rw [skipSeps_space _ (head_natDigits_not_sep ti _)]
  simp only [Option.some_bind]
  rw [parseNatField_natDigits ti [] head_nil_not_digit]
  simp only [Option.some_bind]
  rfl

/-! ### Validation lemmas -/

theorem deviceType_fromCode_isSome (n : Nat) :
    (DeviceType.fromCode n).isSome ↔ n ≤ 2 := by
  unfold DeviceType.fromCode
  split_ifs <;> simp <;> omega

theorem deviceMode_fromCode_isSome (n : Nat) :
    (DeviceMode.fromCode n).isSome ↔ n ≤ 1 := by
  unfold DeviceMode.fromCode
  split_ifs <;> simp <;> omega

theorem deviceState_ofInt_nat_isSome (n : Nat) :
    (DeviceState.ofInt (n : Int)).isSome ↔ n ≤ 5 := by
  unfold DeviceState.ofInt
  split_ifs <;> simp_all <;> omega

theorem buildDevice_isSome_iff (addr ty gr mo st he ti : Nat) :
    (buildDevice addr ty gr mo st he ti).isSome ↔ infoFieldsValid ty gr mo st he := by
  have h1 := deviceType_fromCode_isSome ty
  have h2 := deviceMode_fromCode_isSome mo
  have h3 := deviceState_ofInt_nat_isSome st
  unfold buildDevice infoFieldsValid
  rcases hty : DeviceType.fromCode ty with _ | tyv <;> rw [hty] at h1 <;>
    rcases hmo : DeviceMode.fromCode mo with _ | mov <;> rw [hmo] at h2 <;>
      rcases hst : DeviceState.ofInt ((st : Nat) : Int) with _ | stv <;> rw [hst] at h3 <;>
        simp_all <;> split_ifs <;> simp_all <;> omega

theorem buildDevice_mia {addr ty gr mo st he ti : Nat} {d : Device}
    (h : buildDevice addr ty gr mo st he ti = some d) :
    d.missing_in_action = false := by
  unfold buildDevice at h
  rcases hty : DeviceType.fromCode ty with _ | tyv
  · simp [hty] at h
  rcases hmo : DeviceMode.fromCode mo with _ | mov
  · simp [hty, hmo] at h
  rcases hst : DeviceState.ofInt ((st : Nat) : Int) with _ | stv
  · simp [hty, hmo, hst] at h
  simp only [hty, hmo, hst] at h
  split_ifs at h <;>
    first
      | exact Option.noConfusion h
      | rw [← Option.some_inj.mp h]

/-- The effect of `_process_query_response` on the registry when the reply
parses as six integer fields: if all fields validate, the built record
replaces the entry at the polled address; otherwise the registry is
untouched; other addresses are never affected. -/
theorem processCore_parsed (resp : String) (s : DMState) (ty gr mo st he ti : Nat)
    (hp : parseInfo resp = some (ty, gr, mo, st, he, ti)) :
    (∀ d, buildDevice s.current ty gr mo st he ti = some d →
        (processResponseCore resp s).devs s.current = some d) ∧
    (buildDevice s.current ty gr mo st he ti = none →
        (processResponseCore resp s).devs = s.devs) ∧
    (∀ a, a ≠ s.current → (processResponseCore resp s).devs a = s.devs a) := by
  have hne : resp ≠ "Ack 2" := by
    intro h
    rw [h] at hp
    have hnone : parseInfo "Ack 2" = none := rfl
    rw [hnone] at hp
    cases hp
  refine ⟨?_, ?_, ?_⟩
  · intro d hd
    simp [processResponseCore, if_neg hne, hp, hd]
  · intro hd
    simp [processResponseCore, if_neg hne, hp, hd]
  · intro a ha
    simp only [processResponseCore, if_neg hne, hp]
    cases hb : buildDevice s.current ty gr mo st he ti <;> simp [hb, ha]

/-- C5 counterexample: a `GetInfo` reply whose state field is `-1` (all
other fields in range) is not accepted: the regex field pattern `(\d+)`
cannot match a negative number, so the line fails to parse and no record
is produced, contradicting the claim's "in particular" case. -/
theorem C5_state_minus_one_not_accepted :
    parseInfo "0 0 0 -1 100 0" = none ∧
    (processResponseCore "0 0 0 -1 100 0"
        ⟨fun _ => none, 5, false, none, true⟩).devs 5 = none :=
  ⟨rfl, rfl⟩

/-- C5 (amended): a reply matching the regex — six *non-negative* decimal
fields — is accepted, producing a full record that replaces any prior
record for the polled address with missing-in-action cleared, if and only
if each field validates (type ≤ 2, group ≤ 7, mode ≤ 1, state ≤ 5,
health ≤ 255, time unconstrained as it is non-negative by construction);
a state field of `-1` can never be parsed, so the "state = -1 accepted"
case cannot occur: such a line is ignored. -/
theorem C5_accept_iff_valid (resp : String) (s : DMState) (ty gr mo st he ti : Nat)
    (hp : parseInfo resp = some (ty, gr, mo, st, he, ti)) :
    ((buildDevice s.current ty gr mo st he ti).isSome ↔ infoFieldsValid ty gr mo st he) ∧
    (∀ d, buildDevice s.current ty gr mo st he ti = some d →
        (processResponseCore resp s).devs s.current = some d ∧
        d.missing_in_action = false) ∧
    (buildDevice s.current ty gr mo st he ti = none →
        (processResponseCore resp s).devs = s.devs) ∧
    (∀ a, a ≠ s.current → (processResponseCore resp s).devs a = s.devs a) := by
  obtain ⟨h1, h2, h3⟩ := processCore_parsed resp s ty gr mo st he ti hp
  exact ⟨buildDevice_isSome_iff s.current ty gr mo st he ti,
         fun d hd => ⟨h1 d hd, buildDevice_mia hd⟩, h2, h3⟩

theorem C5_accept_iff_valid_witness :
    (buildDevice 5 1 2 1 5 255 7).isSome ↔ infoFieldsValid 1 2 1 5 255 :=
  (C5_accept_iff_valid "1 2 1 5 255 7" ⟨fun _ => none, 5, false, none, true⟩
    1 2 1 5 255 7 rfl).1

/-- C9: every field combination the `GetInfo` parser accepts, when
formatted back into a wire line, parses to the same six values and (via
the same deterministic validator) stores the identical `Device` record.
The parser and validator are total functions of the input. -/
theorem C9_parse_format_roundtrip (s : DMState) (ty gr mo st he ti : Nat) (d : Device)
    (hacc : buildDevice s.current ty gr mo st he ti = some d) :
    parseInfo (formatInfoLine ty gr mo st he ti) = some (ty, gr, mo, st, he, ti) ∧
    (processResponseCore (formatInfoLine ty gr mo st he ti) s).devs s.current = some d := by
  have hp : parseInfo (formatInfoLine ty gr mo st he ti) = some (ty, gr, mo, st, he, ti) :=
    parseInfoChars_format ty gr mo st he ti
  exact ⟨hp, (processCore_parsed _ s ty gr mo st he ti hp).1 d hacc⟩

theorem C9_parse_format_roundtrip_witness :
    parseInfo (formatInfoLine 1 2 1 5 255 7) = some (1, 2, 1, 5, 255, 7) :=
  (C9_parse_format_roundtrip ⟨fun _ => none, 5, false, none, true⟩ 1 2 1 5 255 7
    ⟨5, DeviceType.target, 2, DeviceMode.combat, DeviceState.destroyed, 255, 7, false⟩
    rfl).1

/-! ### Command Transport step lemmas (towards C1) -/

theorem c1prop_basic (q : List QueuedCommand) (cst : CTState) (s' : TransportState)
    (hq : s'.queue = q)
    (hwork : s'.ctState = CTState.work → cst = CTState.work)
    (hidle : cst = CTState.work → s'.ctState ≠ CTState.idle) :
    C1Prop q cst s' := by
  refine ⟨?_, ?_, ?_, Or.inl hq⟩
  · unfold inFlightCount
    split <;> omega
  · intro hw hnw
    exact absurd (hwork hw) hnw
  · intro hw hi
    exact absurd hi (hidle hw)

theorem c1prop_append (q : List QueuedCommand) (cst : CTState) (s' : TransportState)
    (qc : QueuedCommand) (hq : s'.queue = q ++ [qc])
    (hwork : s'.ctState = CTState.work → cst = CTState.work)
    (hidle : cst = CTState.work → s'.ctState ≠ CTState.idle) :
    C1Prop q cst s' := by
  refine ⟨?_, ?_, ?_, Or.inr (Or.inl ⟨qc, hq⟩)⟩
  · unfold inFlightCount
    split <;> omega
  · intro hw hnw
    exact absurd (hwork hw) hnw
  · intro hw hi
    exact absurd hi (hidle hw)

theorem c1prop_emptied (q : List QueuedCommand) (cst : CTState) (s' : TransportState)
    (hq : s'.queue = [])
    (hwork : s'.ctState = CTState.work → cst = CTState.work)
    (hidle : cst = CTState.work → s'.ctState ≠ CTState.idle) :
    C1Prop q cst s' := by
  refine ⟨?_, ?_, ?_, Or.inr (Or.inr (Or.inr hq))⟩
  · unfold inFlightCount
    split <;> omega
  · intro hw hnw
    exact absurd (hwork hw) hnw
  · intro hw hi
    exact absurd hi (hidle hw)

theorem c1prop_finalize (s s' : TransportState) (h : finalizeRequest s = some s')
    (hwc : s.writeComplete = true) (hrc : s.readComplete = true)
    (hwork : s.ctState = CTState.work) :
    C1Prop s.queue s.ctState s' := by
  unfold finalizeRequest at h
  split at h
  · rename_i hne
    exact absurd hwork hne
  · cases hq : s.queue with
    | nil =>
      simp only [hq] at h
      exact Option.noConfusion h
    | cons hd tl =>
      simp only [hq] at h
      obtain rfl := Option.some_inj.mp h
      refine ⟨?_, ?_, ?_, ?_⟩
      · simp [inFlightCount]
      · intro hw _
        exact CTState.noConfusion hw
      · intro _ _
        exact ⟨rfl, hwc, hrc⟩
      · exact Or.inr (Or.inr (Or.inl ⟨rfl, hwork, rfl, hwc, hrc⟩))

theorem processRequest_queue (s s' : TransportState) (h : processRequest s = some s') :
    s'.queue = s.queue := by
  unfold processRequest at h
  split at h
  · obtain rfl := Option.some_inj.mp h
    rfl
  · split at h
    · obtain rfl := Option.some_inj.mp h
      rfl
    · cases hq : s.queue with
      | nil =>
        simp only [hq] at h
        exact Option.noConfusion h
      | cons hd tl =>
        simp only [hq] at h
        obtain rfl := Option.some_inj.mp h
        rfl

theorem c1prop_processRequest (s s' : TransportState) (h : processRequest s = some s') :
    C1Prop s.queue s.ctState s' := by
  unfold processRequest at h
  split at h
  · obtain rfl := Option.some_inj.mp h
    exact c1prop_basic _ _ _ rfl (fun hw => hw)
      (fun hw hi => CTState.noConfusion (hw.symm.trans hi))
  · rename_i hidl
    have hidle' : s.ctState = CTState.idle := not_not.mp hidl
    split at h
    · obtain rfl := Option.some_inj.mp h
      exact c1prop_basic _ _ _ rfl (fun hw => CTState.noConfusion hw)
        (fun _ hi => CTState.noConfusion hi)
    · cases hq : s.queue with
      | nil =>
        simp only [hq] at h
        exact Option.noConfusion h
      | cons hd tl =>
        simp only [hq] at h
        obtain rfl := Option.some_inj.mp h
        refine ⟨?_, ?_, ?_, Or.inl rfl⟩
        · simp [inFlightCount]
        · intro _ _
          exact ⟨⟨hd, tl, rfl, rfl⟩, rfl, rfl, Or.inl rfl⟩
        · intro hcw _
          rw [hidle'] at hcw
          exact CTState.noConfusion hcw

theorem c1prop_handleWrite (n : Int) (s s' : TransportState)
    (h : handleWrite n s = some s') : C1Prop s.queue s.ctState s' := by
  unfold handleWrite at h
  split at h
  · obtain rfl := Option.some_inj.mp h
    exact c1prop_basic _ _ _ rfl (fun hw => hw)
      (fun hw hi => CTState.noConfusion (hw.symm.trans hi))
  · rename_i hnw
    have hw : s.ctState = CTState.work := not_not.mp hnw
    split at h
    · split at h
      · rename_i hrc
        exact c1prop_finalize
          { s with unsentBytes := s.unsentBytes - n, writeComplete := true } s' h rfl hrc hw
      · obtain rfl := Option.some_inj.mp h
        exact c1prop_basic _ _ _ rfl (fun _ => hw)
          (fun _ hi => CTState.noConfusion (hw.symm.trans hi))
    · obtain rfl := Option.some_inj.mp h
      exact c1prop_basic _ _ _ rfl (fun _ => hw)
        (fun _ hi => CTState.noConfusion (hw.symm.trans hi))

theorem c1prop_handleRead (l : Option String) (s s' : TransportState)
    (h : handleRead l s = some s') : C1Prop s.queue s.ctState s' := by
  unfold handleRead at h
  split at h
  · obtain rfl := Option.some_inj.mp h
    exact c1prop_basic _ _ _ rfl (fun hw => hw)
      (fun hw hi => CTState.noConfusion (hw.symm.trans hi))
  · rename_i hnw
    have hw : s.ctState = CTState.work := not_not.mp hnw
    cases l with
    | none =>
      simp only [handleReadLine] at h
      obtain rfl := Option.some_inj.mp h
      exact c1prop_basic _ _ _ rfl (fun _ => hw)
        (fun _ hi => CTState.noConfusion (hw.symm.trans hi))
    | some raw =>
      simp only [handleReadLine] at h
      split at h
      · cases hq : s.queue with
        | nil =>
          simp only [hq] at h
          exact Option.noConfusion h
        | cons hd tl =>
          simp only [hq] at h
          split at h
          · rename_i hwc
            exact c1prop_finalize
              ⟨hd :: tl, s.unsentBytes, s.ctState, true, s.writeComplete,
                s.timerActive, s.portOpen⟩ s' h hwc rfl hw
          · obtain rfl := Option.some_inj.mp h
            exact c1prop_basic _ _ _ rfl (fun _ => hw)
              (fun _ hi => CTState.noConfusion (hw.symm.trans hi))
      · obtain rfl := Option.some_inj.mp h
        exact c1prop_basic _ _ _ rfl (fun _ => hw)
          (fun _ hi => CTState.noConfusion (hw.symm.trans hi))

/-- C1: for every delivered event that does not crash, the transport step
satisfies the single-in-flight / FIFO / dequeue-after-both-completions
property `C1Prop`: at most one command is in flight; a write is only ever
issued for the head of the queue, with both completion flags freshly
cleared; the transport retires a command (returning from `work` to
`idle`) only with both its write-completion and read-completion recorded,
popping exactly the head; and the queue is otherwise only appended to at
the back or cleared wholesale — hence the N-th queued command is never
written before the (N-1)-th has both completions recorded (or the queue
has been cleared/disabled externally). -/
theorem C1_single_flight_fifo (s s' : TransportState) (e : TEvent)
    (h : step s e = some s') : C1Prop s.queue s.ctState s' := by
  cases e with
  | timerFire =>
    simp only [step] at h
    split at h
    · exact c1prop_processRequest { s with timerActive := false } s' h
    · obtain rfl := Option.some_inj.mp h
      exact c1prop_basic _ _ _ rfl (fun hw => hw)
        (fun hw hi => CTState.noConfusion (hw.symm.trans hi))
  | bytesWritten n => exact c1prop_handleWrite n s s' h
  | readyRead l => exact c1prop_handleRead l s s' h
  | sendCommand r cb =>
    simp only [step] at h
    obtain rfl := Option.some_inj.mp h
    unfold sendCommandFn
    split
    · exact c1prop_append _ _ _ ⟨r, cb⟩ rfl (fun hw => hw)
        (fun hw hi => CTState.noConfusion (hw.symm.trans hi))
    · exact c1prop_append _ _ _ ⟨r, cb⟩ rfl (fun hw => hw)
        (fun hw hi => CTState.noConfusion (hw.symm.trans hi))
  | enable =>
    simp only [step] at h
    unfold enableFn at h
    split at h
    · obtain rfl := Option.some_inj.mp h
      exact c1prop_basic _ _ _ rfl (fun hw => hw)
        (fun hw hi => CTState.noConfusion (hw.symm.trans hi))
    · rename_i hnd
      have hd : s.ctState = CTState.disabled := not_not.mp hnd
      split at h
      · have hq' := processRequest_queue _ _ h
        have hc := c1prop_processRequest _ _ h
        rw [hd]
        obtain ⟨h1, h2, h3, h4⟩ := hc
        refine ⟨h1, ?_, ?_, ?_⟩
        · intro hcw _
          obtain ⟨hex, hwc, hrc, _⟩ := h2 hcw (fun hh => CTState.noConfusion hh)
          exact ⟨hex, hwc, hrc, Or.inr ⟨⟨"Ping\r\n", none⟩, hq'⟩⟩
        · intro hcw _
          exact CTState.noConfusion hcw
        · exact Or.inr (Or.inl ⟨⟨"Ping\r\n", none⟩, hq'⟩)
      · rename_i hq2
        exfalso
        have hnil := not_not.mp hq2
        simp [sendCommandFn] at hnil
  | disable =>
    simp only [step] at h
    obtain rfl := Option.some_inj.mp h
    exact c1prop_basic _ _ _ rfl (fun hw => CTState.noConfusion hw)
      (fun _ hi => CTState.noConfusion hi)
  | clear =>
    simp only [step] at h
    obtain rfl := Option.some_inj.mp h
    exact c1prop_emptied _ _ _ rfl (fun hw => hw)
      (fun hcw hi => CTState.noConfusion (hcw.symm.trans hi))
  | portOpened =>
    simp only [step] at h
    obtain rfl := Option.some_inj.mp h
    exact c1prop_basic _ _ _ rfl (fun hw => hw)
      (fun hw hi => CTState.noConfusion (hw.symm.trans hi))
  | portClosed =>
    simp only [step] at h
    obtain rfl := Option.some_inj.mp h
    exact c1prop_basic _ _ _ rfl (fun hw => hw)
      (fun hw hi => CTState.noConfusion (hw.symm.trans hi))

theorem C1_single_flight_fifo_witness :
    C1Prop [⟨"Ping\r\n", none⟩] CTState.work
      ⟨[], 0, CTState.idle, true, true, false, true⟩ :=
  C1_single_flight_fifo
    ⟨[⟨"Ping\r\n", none⟩], 0, CTState.work, false, true, false, true⟩
    ⟨[], 0, CTState.idle, true, true, false, true⟩
    (TEvent.readyRead (some "Ack 0\r\n")) rfl

/-! ### Upload pass lemmas (towards C8) -/

theorem emitParams_some (addr : Nat) (l : List (String × Int))
    (h : l.all (fun kv => (deviceParamValue kv.1).isSome) = true) :
    ∃ ps, emitParams addr l = some ps ∧
      ∀ c ∈ ps, ∃ pid v, c = Cmd.setParameter addr pid v := by
  induction l with
  | nil => exact ⟨[], rfl, by simp⟩
  | cons kv rest ih =>
    simp only [List.all_cons, Bool.and_eq_true] at h
    obtain ⟨h1, h2⟩ := h
    obtain ⟨pid, hpid⟩ := Option.isSome_iff_exists.mp h1
    obtain ⟨ps, hps, hmem⟩ := ih h2
    refine ⟨Cmd.setParameter addr pid kv.2 :: ps, ?_, ?_⟩
    · obtain ⟨k, v⟩ := kv
      simp only [emitParams, hpid, hps]
      rfl
    · intro c hc
      rcases List.mem_cons.mp hc with hc | hc
      · exact ⟨pid, kv.2, hc⟩
      · exact hmem c hc

theorem processCore_empty (s : DMState) :
    processResponseCore "" s = { s with current := advanceCursor s.current } := rfl

theorem passRun_succ (settings : DeviceType → Nat → List (String × Int)) (n : Nat)
    (s : DMState) :
    passRun settings (n + 1) s =
      match pollStep settings "" s with
      | none => none
      | some (s', cmds, pushed, fin) =>
        match passRun settings n s' with
        | none => none
        | some (sf, cs, ps, fin') =>
          some (sf, cmds ++ cs, (pushed.toList ++ ps), fin || fin') := rfl

theorem advanceCursor_bounds (d : Nat) (h1 : 1 ≤ d) (h2 : d ≤ 31) :
    1 ≤ advanceCursor d ∧ advanceCursor d ≤ 31 := by
  unfold advanceCursor
  split <;> omega

theorem advanceCursor_dist (c d k : Nat) (hd2 : d ≤ 31)
    (h : (31 + c - d) % 31 = k + 1) :
    (31 + c - advanceCursor d) % 31 = k ∧ d ≠ c := by
  unfold advanceCursor
  split <;> constructor <;> omega

theorem pollStep_disarm (settings : DeviceType → Nat → List (String × Int))
    (devs : Nat → Option Device) (c : Nat) :
    pollStep settings "" ⟨devs, c, true, some c, true⟩ =
      some (⟨devs, advanceCursor c, false, none, true⟩, [Cmd.getInfo c], none, true) := by
  have hdis : disarmCheck ⟨devs, c, true, some c, true⟩ =
      (⟨devs, c, false, none, true⟩, true) := by
    simp [disarmCheck]
  simp [pollStep, queryStep, hdis, processCore_empty]

theorem pollStep_mid (settings : DeviceType → Nat → List (String × Int))
    (devs : Nat → Option Device) (d f : Nat) (hne : f ≠ d)
    (hp : paramsOk settings (devs d) = true) :
    ∃ ps, pollStep settings "" ⟨devs, d, true, some f, true⟩ =
        some (⟨devs, advanceCursor d, true, some f, true⟩, Cmd.getInfo d :: ps,
          (if presentDev (devs d) then some d else none), false) ∧
      ∀ a pid v, Cmd.setParameter a pid v ∈ (Cmd.getInfo d :: ps) →
        a = d ∧ presentDev (devs d) = true := by
  have hdis : disarmCheck ⟨devs, d, true, some f, true⟩ =
      (⟨devs, d, true, some f, true⟩, false) := by
    simp [disarmCheck, hne]
  have harm : armAnchor ⟨devs, d, true, some f, true⟩ = ⟨devs, d, true, some f, true⟩ := by
    simp [armAnchor]
  cases hd : devs d with
  | none =>
    refine ⟨[], ?_, ?_⟩
    · simp [pollStep, queryStep, hdis, harm, pushParams, hd, presentDev,
            processCore_empty]
    · intro a pid v hm
      simp at hm
  | some dv =>
    cases hmia : dv.missing_in_action with
    | true =>
      refine ⟨[], ?_, ?_⟩
      · simp [pollStep, queryStep, hdis, harm, pushParams, hd, hmia, presentDev,
              processCore_empty]
      · intro a pid v hm
        simp at hm
    | false =>
      have hp' : (settings dv.type dv.id).all
          (fun kv => (deviceParamValue kv.1).isSome) = true := by
        simpa [paramsOk, hd] using hp
      obtain ⟨ps, hps, hmem⟩ := emitParams_some d _ hp'
      refine ⟨ps, ?_, ?_⟩
      · simp [pollStep, queryStep, hdis, harm, pushParams, hd, hmia, hps, presentDev,
              processCore_empty]
      · intro a pid v hm
        rcases List.mem_cons.mp hm with hm | hm
        · exact Cmd.noConfusion hm
        · obtain ⟨pid', v', heq⟩ := hmem _ hm
          cases heq
          exact ⟨rfl, by simp [presentDev, hd, hmia]⟩

theorem pollStep_arm (settings : DeviceType → Nat → List (String × Int))
    (devs : Nat → Option Device) (c : Nat)
    (hp : paramsOk settings (devs c) = true) :
    ∃ ps, pollStep settings "" ⟨devs, c, true, none, true⟩ =
        some (⟨devs, advanceCursor c, true, some c, true⟩, Cmd.getInfo c :: ps,
          (if presentDev (devs c) then some c else none), false) ∧
      ∀ a pid v, Cmd.setParameter a pid v ∈ (Cmd.getInfo c :: ps) →
        a = c ∧ presentDev (devs c) = true := by
  have hdis : disarmCheck ⟨devs, c, true, none, true⟩ =
      (⟨devs, c, true, none, true⟩, false) := by
    simp [disarmCheck]
  have harm : armAnchor ⟨devs, c, true, none, true⟩ = ⟨devs, c, true, some c, true⟩ := by
    simp [armAnchor]
  cases hd : devs c with
  | none =>
    refine ⟨[], ?_, ?_⟩
    · simp [pollStep, queryStep, hdis, harm, pushParams, hd, presentDev,
            processCore_empty]
    · intro a pid v hm
      simp at hm
  | some dv =>
    cases hmia : dv.missing_in_action with
    | true =>
      refine ⟨[], ?_, ?_⟩
      · simp [pollStep, queryStep, hdis, harm, pushParams, hd, hmia, presentDev,
              processCore_empty]
      · intro a pid v hm
        simp at hm
    | false =>
      have hp' : (settings dv.type dv.id).all
          (fun kv => (deviceParamValue kv.1).isSome) = true := by
        simpa [paramsOk, hd] using hp
      obtain ⟨ps, hps, hmem⟩ := emitParams_some c _ hp'
      refine ⟨ps, ?_, ?_⟩
      · simp [pollStep, queryStep, hdis, harm, pushParams, hd, hmia, hps, presentDev,
              processCore_empty]
      · intro a pid v hm
        rcases List.mem_cons.mp hm with hm | hm
        · exact Cmd.noConfusion hm
        · obtain ⟨pid', v', heq⟩ := hmem _ hm
          cases heq
          exact ⟨rfl, by simp [presentDev, hd, hmia]⟩

theorem passRun_middle (settings : DeviceType → Nat → List (String × Int))
    (devs : Nat → Option Device) (c : Nat) (hc1 : 1 ≤ c) (hc2 : c ≤ 31)
    (hkeys : ∀ a, a < 32 → paramsOk settings (devs a) = true) :
    ∀ n d, 1 ≤ d → d ≤ 31 → (31 + c - d) % 31 = n →
    ∃ cmds,
      passRun settings (n + 1) ⟨devs, d, true, some c, true⟩ =
        some (⟨devs, advanceCursor c, false, none, true⟩, cmds,
          (seqAddrs d n).filter (fun a => presentDev (devs a)), true) ∧
      (∀ a pid v, Cmd.setParameter a pid v ∈ cmds →
        a ∈ (seqAddrs d n).filter (fun a => presentDev (devs a))) := by
  intro n
  induction n with
  | zero =>
    intro d hd1 hd2 hdist
    have hdc : d = c := by omega
    subst hdc
    refine ⟨[Cmd.getInfo d], ?_, ?_⟩
    · rw [passRun_succ, pollStep_disarm]
      simp [passRun, seqAddrs]
    · intro a pid v hm
      simp at hm
  | succ k ih =>
    intro d hd1 hd2 hdist
    obtain ⟨hdist', hne⟩ := advanceCursor_dist c d k hd2 hdist
    have hb := advanceCursor_bounds d hd1 hd2
    have hp : paramsOk settings (devs d) = true := hkeys d (by omega)
    obtain ⟨ps, hpoll, hmem⟩ := pollStep_mid settings devs d c (fun hfd => hne hfd.symm) hp
    obtain ⟨cmds, hrec, hmemr⟩ := ih (advanceCursor d) hb.1 hb.2 hdist'
    refine ⟨(Cmd.getInfo d :: ps) ++ cmds, ?_, ?_⟩
    · rw [passRun_succ, hpoll]
      simp only []
      rw [hrec]
      cases hpd : presentDev (devs d) <;>
        simp [seqAddrs, List.filter_cons, hpd]
    · intro a pid v hm
      rcases List.mem_append.mp hm with hm | hm
      · obtain ⟨rfl, hpd⟩ := hmem a pid v hm
        simp [seqAddrs, List.mem_filter, hpd]
      · have hin := hmemr a pid v hm
        rw [List.mem_filter] at hin ⊢
        exact ⟨by simp [seqAddrs, List.mem_cons]; exact Or.inr (by simpa using hin.1), hin.2⟩

theorem seqAddrs_eq_map (n : Nat) :
    ∀ d, 1 ≤ d → d ≤ 31 →
      seqAddrs d n = (List.range n).map (fun i => (d - 1 + i) % 31 + 1) := by
  induction n with
  | zero =>
    intro d _ _
    simp [seqAddrs]
  | succ k ih =>
    intro d hd1 hd2
    have hb := advanceCursor_bounds d hd1 hd2
    rw [show seqAddrs d (k + 1) = d :: seqAddrs (advanceCursor d) k from rfl,
        ih (advanceCursor d) hb.1 hb.2, List.range_succ_eq_map]
    simp only [List.map_cons, List.map_map]
    congr 1
    · omega
    · apply List.map_congr_left
      intro i hi
      simp only [Function.comp]
      unfold advanceCursor
      split <;> omega

theorem seqAddrs_mem_iff (c : Nat) (hc1 : 1 ≤ c) (hc2 : c ≤ 31) (a : Nat) :
    a ∈ seqAddrs c 31 ↔ (1 ≤ a ∧ a ≤ 31) := by
  rw [seqAddrs_eq_map 31 c hc1 hc2]
  simp only [List.mem_map, List.mem_range]
  constructor
  · rintro ⟨i, hi, rfl⟩
    have := Nat.mod_lt (c - 1 + i) (show 0 < 31 by omega)
    omega
  · intro ha
    refine ⟨(a + 31 - c) % 31, Nat.mod_lt _ (by omega), ?_⟩
    omega

theorem seqAddrs_nodup (c : Nat) (hc1 : 1 ≤ c) (hc2 : c ≤ 31) :
    (seqAddrs c 31).Nodup := by
  rw [seqAddrs_eq_map 31 c hc1 hc2]
  refine List.Nodup.map_on ?_ (List.nodup_range 31)
  intro i hi j hj hf
  simp only [List.mem_range] at hi hj
  omega

theorem advanceCursor_dist30 (c : Nat) (hc1 : 1 ≤ c) (hc2 : c ≤ 31) :
    (31 + c - advanceCursor c) % 31 = 30 := by
  unfold advanceCursor
  split <;> omega

/-- C8: after `start_upload()` arms a pass (upload flag set, no anchor),
32 poll iterations — the arming step at the starting address `c`, the 30
following addresses, and the disarm step when the cursor returns to `c` —
push `SetParameter` commands to exactly the known, non-missing-in-action
devices: each such address is pushed to exactly once (the pushed list has
no duplicates and contains precisely the present addresses of 1..31),
missing-in-action or unknown devices receive no `SetParameter` commands,
the pass disarms automatically (upload flag false, anchor cleared) and
`upload_finished` is signaled.  The registry is held fixed across the
pass (responses that fail to parse). -/
theorem C8_upload_pass_exactly_once (settings : DeviceType → Nat → List (String × Int))
    (devs : Nat → Option Device) (c : Nat) (hc1 : 1 ≤ c) (hc2 : c ≤ 31)
    (hkeys : ∀ a, a < 32 → paramsOk settings (devs a) = true) :
    ∃ cmds pushed,
      passRun settings 32 ⟨devs, c, true, none, true⟩ =
        some (⟨devs, advanceCursor c, false, none, true⟩, cmds, pushed, true) ∧
      pushed.Nodup ∧
      (∀ a, a ∈ pushed ↔ ((1 ≤ a ∧ a ≤ 31) ∧ presentDev (devs a) = true)) ∧
      (∀ a pid v, Cmd.setParameter a pid v ∈ cmds → presentDev (devs a) = true) := by
  have hb := advanceCursor_bounds c hc1 hc2
  have hp : paramsOk settings (devs c) = true := hkeys c (by omega)
  obtain ⟨ps, hpoll, hmem0⟩ := pollStep_arm settings devs c hp
  obtain ⟨cmds, hrec, hmemr⟩ := passRun_middle settings devs c hc1 hc2 hkeys 30
    (advanceCursor c) hb.1 hb.2 (advanceCursor_dist30 c hc1 hc2)
  refine ⟨(Cmd.getInfo c :: ps) ++ cmds,
          (seqAddrs c 31).filter (fun a => presentDev (devs a)), ?_, ?_, ?_, ?_⟩
  · rw [show (32 : Nat) = 31 + 1 from rfl, passRun_succ, hpoll]
    simp only []
    rw [show (31 : Nat) = 30 + 1 from rfl, hrec]
    cases hpd : presentDev (devs c) <;>
      simp [show seqAddrs c 31 = c :: seqAddrs (advanceCursor c) 30 from rfl,
            List.filter_cons, hpd]
  · exact (seqAddrs_nodup c hc1 hc2).filter _
  · intro a
    rw [List.mem_filter, seqAddrs_mem_iff c hc1 hc2]
  · intro a pid v hm
    rcases List.mem_append.mp hm with hm | hm
    · obtain ⟨rfl, hpd⟩ := hmem0 a pid v hm
      exact hpd
    · exact (List.mem_filter.mp (hmemr a pid v hm)).2

theorem C8_upload_pass_exactly_once_witness :
    ∃ cmds pushed,
      passRun (fun _ _ => [("IRPower", (10 : Int))]) 32
        ⟨fun a =>
          if a = 3 then
            some ⟨3, DeviceType.tank, 0, DeviceMode.training, DeviceState.operational,
                  100, 0, false⟩
          else if a = 5 then
            some ⟨5, DeviceType.target, 1, DeviceMode.combat, DeviceState.damaged,
                  50, 2, true⟩
          else none, 1, true, none, true⟩ =
        some (⟨fun a =>
          if a = 3 then
            some ⟨3, DeviceType.tank, 0, DeviceMode.training, DeviceState.operational,
                  100, 0, false⟩
          else if a = 5 then
            some ⟨5, DeviceType.target, 1, DeviceMode.combat, DeviceState.damaged,
                  50, 2, true⟩
          else none, advanceCursor 1, false, none, true⟩, cmds, pushed, true) ∧
      pushed.Nodup ∧
      (∀ a, a ∈ pushed ↔ ((1 ≤ a ∧ a ≤ 31) ∧
        presentDev ((fun a =>
          if a = 3 then
            some ⟨3, DeviceType.tank, 0, DeviceMode.training, DeviceState.operational,
                  100, 0, false⟩
          else if a = 5 then
            some ⟨5, DeviceType.target, 1, DeviceMode.combat, DeviceState.damaged,
                  50, 2, true⟩
          else none : Nat → Option Device) a) = true)) ∧
      (∀ a pid v, Cmd.setParameter a pid v ∈ cmds →
        presentDev ((fun a =>
          if a = 3 then
            some ⟨3, DeviceType.tank, 0, DeviceMode.training, DeviceState.operational,
                  100, 0, false⟩
          else if a = 5 then
            some ⟨5, DeviceType.target, 1, DeviceMode.combat, DeviceState.damaged,
                  50, 2, true⟩
          else none : Nat → Option Device) a) = true) :=
  C8_upload_pass_exactly_once (fun _ _ => [("IRPower", (10 : Int))])
    (fun a =>
      if a = 3 then
        some ⟨3, DeviceType.tank, 0, DeviceMode.training, DeviceState.operational,
              100, 0, false⟩
      else if a = 5 then
        some ⟨5, DeviceType.target, 1, DeviceMode.combat, DeviceState.damaged,
              50, 2, true⟩
      else none)
    1 (by decide) (by decide) (by decide)

end Robothlon
